import Mathlib

/-!
Shallow embedding of the lexer in `src/highligher.rs` of the `colors`
repository.

The Rust `Highligher` stores a `VecDeque<char>` field `source` together with a
field `current_char : Option<char>`.  `current_char` is always the character
most recently popped from the front of the deque (`new` and `advance` are the
only writers and both set it with `source.pop_front()`), so the pair is always
exactly `(head?, tail)` of the list of characters not yet consumed.  We embed
the scanner state as that list of remaining characters, with `current_char`
and `source` as the two derived views.  All scan routines are translated
clause by clause from the Rust code; loops become structural recursion on the
remaining-character list, and the top-level `while` loop of `make_tokens`
becomes recursion on a fuel argument initialised to the number of remaining
characters (the fixpoint equation proved below shows the fuel never runs out).
-/

/-- All the different token types (`enum TokenType` in the source). -/
inductive TokenType where
  | Ident
  | Num
  | Str
  | Sym
  | Kw
  | BuiltinFun
  | Fun
  | Comment
  | Error
  | Other
  deriving DecidableEq, Repr

/-- A token is a type together with its literal value
(`struct Token(pub TokenType, pub String)` in the source); the string is
embedded as its list of characters. -/
structure Token where
  typ : TokenType
  literal : List Char
  deriving DecidableEq, Repr

/-- The scanner state: the list of characters not yet consumed.  The Rust
struct's two fields are the views `Highligher.current_char` (head) and
`Highligher.source` (tail) of this list. -/
abbrev Highligher := List Char

namespace Highligher

/-- The `current_char` field of the Rust struct: head of the remaining text. -/
def current_char (h : Highligher) : Option Char :=
  h.head?

/-- The `source` field of the Rust struct: everything after `current_char`. -/
def source (h : Highligher) : List Char :=
  h.tail

/-- `Highligher::new`: collect the characters and pop the first one into
`current_char`.  In the remaining-characters embedding the state is the whole
input. -/
def new (s : List Char) : Highligher :=
  s

/-- `Highligher::advance`: `self.current_char = self.source.pop_front()`,
i.e. drop the current character. -/
def advance (h : Highligher) : Highligher :=
  h.tail

/-- `Highligher::KEYWORDS` (betty reserved keywords). -/
def KEYWORDS : List String :=
  ["and", "or", "not", "if", "else", "do", "end", "for", "foreach", "while", "fun",
   "continue", "break", "return", "match", "try", "catch", "in", "throw", "using", "as",
   "true", "false", "nothing", "newerror"]

/-- `Highligher::ERRORS` (betty builtin errors). -/
def ERRORS : List String :=
  ["ValueError",
   "TypeError",
   "UnknownIdentifierError",
   "OverflowError",
   "DivisionByZeroError",
   "IndexOutOfBoundsError",
   "FileIOError",
   "VectorMutationError",
   "ModuleImportError",
   "AssertionError",
   "WrongArgumentsNumberError"]

/-- `Highligher::BUILTIN_FUNCTIONS` (betty builtin functions). -/
def BUILTIN_FUNCTIONS : List String :=
  ["print",
   "println",
   "read_line",
   "to_int",
   "to_float",
   "to_str",
   "vpush_back",
   "vpush_front",
   "vpush_at",
   "vpop_front",
   "vpop_back",
   "vpop_at",
   "vfrom_range",
   "vcopy",
   "str_starts_with",
   "str_ends_with",
   "str_is_lowercase",
   "str_is_uppercase",
   "str_to_lowercase",
   "str_to_uppercase",
   "len",
   "get",
   "join",
   "slice",
   "split",
   "replace",
   "fread",
   "fwrite",
   "fappend",
   "err_short",
   "err_traceback",
   "err_kind",
   "err_line",
   "err_description",
   "assert",
   "isint",
   "isfloat",
   "isstr",
   "isbool",
   "isvec",
   "iscallable",
   "iserr"]

/-- `Highligher::SYMBOLS`: the twelve valid betty symbols (parentheses,
brackets, period and comma are commented out in the source). -/
def SYMBOLS : List Char :=
  ['+', '-', '*', '/', '^', '%', ':', '=', '>', '<', '!', '?']

/-- `Highligher::next_is`: true when the current character is `ch`, and
otherwise when the first character of `source` that is not a space or a tab
is `ch`.  The Rust method takes `&mut self` (but never writes), so it is
embedded as returning the resulting state alongside the boolean. -/
def next_is (h : Highligher) (ch : Char) : Bool × Highligher :=
  if current_char h == some ch then
    (true, h)
  else
    match List.find? (fun c => !(c == ' ' || c == '\t')) (source h) with
    | some first => (first == ch, h)
    | none => (false, h)

/-- The character class of the Rust pattern
`'a'..='z' | 'A'..='Z' | '_' | '0'..='9'` used in the loop of `make_ident`. -/
def isIdentChar (c : Char) : Bool :=
  ('a' ≤ c && c ≤ 'z') || ('A' ≤ c && c ≤ 'Z') || c == '_' || ('0' ≤ c && c ≤ '9')

/-- The character class of the dispatch pattern `'a'..='z' | 'A'..='Z' | '_'`
in `make_tokens`. -/
def isIdentStart (c : Char) : Bool :=
  ('a' ≤ c && c ≤ 'z') || ('A' ≤ c && c ≤ 'Z') || c == '_'

/-- The character class of the dispatch pattern `'0'..='9'` in
`make_tokens`. -/
def isDigitChar (c : Char) : Bool :=
  '0' ≤ c && c ≤ '9'

/-- The character class of the pattern `'0'..='9' | '.' | '_'` used in the
loop of `make_num`. -/
def isNumChar (c : Char) : Bool :=
  isDigitChar c || c == '.' || c == '_'

/-- The accumulation loop of `Highligher::make_ident`: push valid identifier
characters and advance, until the current character is no longer one. -/
def make_ident_loop (h : Highligher) (ident : List Char) : List Char × Highligher :=
  match h with
  | ch :: rest =>
    if isIdentChar ch then make_ident_loop rest (ident ++ [ch])
    else (ident, ch :: rest)
  | [] => (ident, [])

/-- `Highligher::make_ident`: scan the maximal identifier run, then classify
it in order against `KEYWORDS`, `BUILTIN_FUNCTIONS`, `ERRORS`, and finally the
`next_is('(')` lookahead. -/
def make_ident (h : Highligher) : Token × Highligher :=
  let p := make_ident_loop h []
  if KEYWORDS.contains (List.asString p.1) then
    (⟨TokenType.Kw, p.1⟩, p.2)
  else if BUILTIN_FUNCTIONS.contains (List.asString p.1) then
    (⟨TokenType.BuiltinFun, p.1⟩, p.2)
  else if ERRORS.contains (List.asString p.1) then
    (⟨TokenType.Error, p.1⟩, p.2)
  else if (next_is p.2 '(').1 then
    (⟨TokenType.Fun, p.1⟩, (next_is p.2 '(').2)
  else
    (⟨TokenType.Ident, p.1⟩, (next_is p.2 '(').2)

/-- Modelled from Rust std: `str::parse::<i64>` restricted to the strings the
lexer can feed it (only digits and periods remain after stripping the
underscores, so no sign, exponent, or `inf`/`nan` spelling can occur).  The
parse succeeds exactly on a non-empty all-digit string whose value fits in a
signed 64-bit integer; a period makes it fail. -/
def parses_as_int (s : List Char) : Bool :=
  !s.isEmpty && s.all isDigitChar &&
    s.foldl (fun n c => 10 * n + (c.toNat - 48)) 0 ≤ 9223372036854775807

/-- Modelled from Rust std: `str::parse::<f64>` restricted to strings of
digits and periods (see `parses_as_int`).  On that alphabet the float grammar
`Digit+ | Digit+ . Digit* | Digit* . Digit+` accepts exactly the non-empty
strings with at most one period and at least one digit; overflow is not a
parse failure (it yields an infinite value). -/
def parses_as_float (s : List Char) : Bool :=
  s.all (fun c => isDigitChar c || c == '.') && s.count '.' ≤ 1 && s.any isDigitChar

/-- The accumulation loop of `Highligher::make_num`: push digits, periods and
underscores and advance, until the current character is no longer one. -/
def make_num_loop (h : Highligher) (num : List Char) : List Char × Highligher :=
  match h with
  | ch :: rest =>
    if isNumChar ch then make_num_loop rest (num ++ [ch])
    else (num, ch :: rest)
  | [] => (num, [])

/-- `Highligher::make_num`: scan the maximal run of digits, periods and
underscores; the token is `Num` when the text with underscores removed parses
as an `i64` or as an `f64`, and `Other` otherwise.  The literal keeps the
underscores either way. -/
def make_num (h : Highligher) : Token × Highligher :=
  let p := make_num_loop h []
  if parses_as_int (p.1.filter (fun c => c != '_'))
      || parses_as_float (p.1.filter (fun c => c != '_')) then
    (⟨TokenType.Num, p.1⟩, p.2)
  else
    (⟨TokenType.Other, p.1⟩, p.2)

/-- The loop of `Highligher::make_str`: push characters verbatim until a
closing quote (pushed and consumed, return `Str`) or the end of input
(return `Str` with what was scanned). -/
def make_str_loop (h : Highligher) (string : List Char) : Token × Highligher :=
  match h with
  | ch :: rest =>
    if ch != '"' then make_str_loop rest (string ++ [ch])
    else (⟨TokenType.Str, string ++ ['"']⟩, rest)
  | [] => (⟨TokenType.Str, string⟩, [])

/-- `Highligher::make_str`: start the literal with the opening quote, skip it,
then run the loop. -/
def make_str (h : Highligher) : Token × Highligher :=
  make_str_loop (advance h) ['"']

/-- The loop of `Highligher::make_comment`: push characters verbatim until a
newline (left unconsumed) or the end of input. -/
def make_comment_loop (h : Highligher) (comment : List Char) : Token × Highligher :=
  match h with
  | ch :: rest =>
    if ch != '\n' then make_comment_loop rest (comment ++ [ch])
    else (⟨TokenType.Comment, comment⟩, ch :: rest)
  | [] => (⟨TokenType.Comment, comment⟩, [])

/-- `Highligher::make_comment`: start the literal with the pipe, skip it, then
run the loop. -/
def make_comment (h : Highligher) : Token × Highligher :=
  make_comment_loop (advance h) ['|']

/-- `Highligher::make_sym_or_other`: one single-character token, `Sym` exactly
when the character belongs to `SYMBOLS`, then advance. -/
def make_sym_or_other (h : Highligher) (ch : Char) : Token × Highligher :=
  (⟨if SYMBOLS.contains ch then TokenType.Sym else TokenType.Other, [ch]⟩, advance h)

/-- The body of the `while` loop of `Highligher::make_tokens`: dispatch on the
current character's class (the five disjoint Rust match arms become an
if-chain). -/
def next_token (h : Highligher) (ch : Char) : Token × Highligher :=
  if isIdentStart ch then make_ident h
  else if isDigitChar ch then make_num h
  else if ch == '"' then make_str h
  else if ch == '|' then make_comment h
  else make_sym_or_other h ch

/-- The `while let Some(ch) = self.current_char` loop of
`Highligher::make_tokens`, with an explicit fuel bound on the number of
iterations.  `make_tokens` runs it with fuel equal to the number of remaining
characters, which is always enough because every scan routine consumes at
least one character (proved below as a fixpoint equation). -/
def make_tokens_go : Nat → Highligher → List Token
  | _, [] => []
  | 0, _ :: _ => []
  | fuel + 1, ch :: t =>
    (next_token (ch :: t) ch).1 :: make_tokens_go fuel (next_token (ch :: t) ch).2

/-- `Highligher::make_tokens`. -/
def make_tokens (h : Highligher) : List Token :=
  make_tokens_go h.length h

end Highligher

/-- The whole pipeline as used by the editor: build the `Highligher` from the
text and run `make_tokens`. -/
def tokenize (s : List Char) : List Token :=
  Highligher.make_tokens (Highligher.new s)

/-- Modelled from the spec (§4 Lookahead): "If the current character itself
equals target, return true immediately.  Otherwise scan forward through the
remaining buffer, skipping space and tab characters only, and compare the
first non-skipped character found; return false if none exists."  Used as the
spec-side description that `next_is` is compared against. -/
def next_is_spec (h : Highligher) (ch : Char) : Bool :=
  Highligher.current_char h == some ch ||
    (List.dropWhile (fun c => c == ' ' || c == '\t') (Highligher.source h)).head? == some ch

namespace Highligher

/-- `next_is` returns its input state unchanged in every branch. -/
theorem next_is_snd (h : Highligher) (ch : Char) : (next_is h ch).2 = h := by
  unfold next_is
  split
  · rfl
  · split <;> rfl

/-- The identifier loop accumulates exactly the maximal `isIdentChar` run and
stops on the rest of the input. -/
theorem make_ident_loop_eq (h : Highligher) (ident : List Char) :
    make_ident_loop h ident =
      (ident ++ List.takeWhile isIdentChar h, List.dropWhile isIdentChar h) := by
  induction h generalizing ident with
  | nil => simp [make_ident_loop]
  | cons ch t ih =>
    cases hch : isIdentChar ch with
    | true => simp [make_ident_loop, hch, ih, List.takeWhile_cons, List.dropWhile_cons]
    | false => simp [make_ident_loop, hch, List.takeWhile_cons, List.dropWhile_cons]

/-- Closed form of `make_ident`: the literal is the maximal identifier run,
the resulting state is the rest, and the type is the first-match
classification chain. -/
theorem make_ident_eq (h : Highligher) :
    make_ident h =
      (⟨if KEYWORDS.contains (List.asString (List.takeWhile isIdentChar h)) then
          TokenType.Kw
        else if BUILTIN_FUNCTIONS.contains (List.asString (List.takeWhile isIdentChar h)) then
          TokenType.BuiltinFun
        else if ERRORS.contains (List.asString (List.takeWhile isIdentChar h)) then
          TokenType.Error
        else if (next_is (List.dropWhile isIdentChar h) '(').1 then
          TokenType.Fun
        else
          TokenType.Ident,
        List.takeWhile isIdentChar h⟩,
       List.dropWhile isIdentChar h) := by
  simp only [make_ident, make_ident_loop_eq, next_is_snd, List.nil_append]
  split_ifs <;> rfl

/-- The number loop accumulates exactly the maximal `isNumChar` run and stops
on the rest of the input. -/
theorem make_num_loop_eq (h : Highligher) (num : List Char) :
    make_num_loop h num =
      (num ++ List.takeWhile isNumChar h, List.dropWhile isNumChar h) := by
  induction h generalizing num with
  | nil => simp [make_num_loop]
  | cons ch t ih =>
    cases hch : isNumChar ch with
    | true => simp [make_num_loop, hch, ih, List.takeWhile_cons, List.dropWhile_cons]
    | false => simp [make_num_loop, hch, List.takeWhile_cons, List.dropWhile_cons]

/-- Closed form of `make_num`: the literal is the maximal run of digits,
periods and underscores, and the type is decided by the two parses of the
underscore-stripped text. -/
theorem make_num_eq (h : Highligher) :
    make_num h =
      (⟨if parses_as_int ((List.takeWhile isNumChar h).filter (fun c => c != '_'))
            || parses_as_float ((List.takeWhile isNumChar h).filter (fun c => c != '_')) then
          TokenType.Num
        else
          TokenType.Other,
        List.takeWhile isNumChar h⟩,
       List.dropWhile isNumChar h) := by
  simp only [make_num, make_num_loop_eq, List.nil_append]
  split_ifs <;> rfl

/-- Closed form of the string loop: it scans up to and including the first
quote, or the whole input when there is none. -/
theorem make_str_loop_eq (t : Highligher) (string : List Char) :
    make_str_loop t string =
      if t.contains '"' then
        (⟨TokenType.Str, string ++ List.takeWhile (fun c => !(c == '"')) t ++ ['"']⟩,
         (List.dropWhile (fun c => !(c == '"')) t).tail)
      else
        (⟨TokenType.Str, string ++ t⟩, []) := by
  induction t generalizing string with
  | nil => simp [make_str_loop]
  | cons ch rest ih =>
    by_cases hch : ch = '"'
    · subst hch
      simp [make_str_loop, List.takeWhile_cons, List.dropWhile_cons]
    · simp [make_str_loop, hch, ih, List.takeWhile_cons, List.dropWhile_cons,
        List.contains_cons, Ne.symm hch]

/-- The string loop splits its literal-so-far plus the scanned text: literal
and leftover state concatenate back to the input. -/
theorem make_str_loop_decomp (t : Highligher) (string : List Char) :
    (make_str_loop t string).1.literal ++ (make_str_loop t string).2 = string ++ t := by
  induction t generalizing string with
  | nil => simp [make_str_loop]
  | cons ch rest ih =>
    by_cases hch : ch = '"'
    · subst hch
      simp [make_str_loop]
    · simp [make_str_loop, hch, ih]

/-- Closed form of the comment loop: it scans up to the first newline, which
is left in the state, or the whole input when there is none. -/
theorem make_comment_loop_eq (t : Highligher) (comment : List Char) :
    make_comment_loop t comment =
      (⟨TokenType.Comment, comment ++ List.takeWhile (fun c => !(c == '\n')) t⟩,
       List.dropWhile (fun c => !(c == '\n')) t) := by
  induction t generalizing comment with
  | nil => simp [make_comment_loop]
  | cons ch rest ih =>
    by_cases hch : ch = '\n'
    · subst hch
      simp [make_comment_loop, List.takeWhile_cons, List.dropWhile_cons]
    · simp [make_comment_loop, hch, ih, List.takeWhile_cons, List.dropWhile_cons]

/-- A character that may start an identifier is an identifier character. -/
theorem isIdentChar_of_isIdentStart (c : Char) (hc : isIdentStart c = true) :
    isIdentChar c = true := by
  simp only [isIdentStart, isIdentChar, Bool.or_eq_true] at hc ⊢
  tauto

/-- A digit is a number character. -/
theorem isNumChar_of_isDigitChar (c : Char) (hc : isDigitChar c = true) :
    isNumChar c = true := by
  simp [isNumChar, hc]

/-- Every dispatched scan routine emits a non-empty literal and hands back
exactly the characters it did not consume: literal and leftover state
concatenate to the input. -/
theorem next_token_decomp (ch : Char) (t : List Char) :
    (next_token (ch :: t) ch).1.literal ≠ [] ∧
      (next_token (ch :: t) ch).1.literal ++ (next_token (ch :: t) ch).2 = ch :: t := by
  unfold next_token
  by_cases h1 : isIdentStart ch = true
  · have hch := isIdentChar_of_isIdentStart ch h1
    simp [h1, make_ident_eq, List.takeWhile_cons, List.dropWhile_cons, hch,
      List.takeWhile_append_dropWhile]
  · by_cases h2 : isDigitChar ch = true
    · have hch := isNumChar_of_isDigitChar ch h2
      simp [h1, h2, make_num_eq, List.takeWhile_cons, List.dropWhile_cons, hch,
        List.takeWhile_append_dropWhile]
    · by_cases h3 : ch = '"'
      · subst h3
        have hd := make_str_loop_decomp t ['"']
        have hn : (make_str_loop t ['"']).1.literal ≠ [] := by
          rw [make_str_loop_eq]
          split <;> simp
        simp only [h1, h2, make_str, advance]
        simp_all [make_str, advance]
      · by_cases h4 : ch = '|'
        · subst h4
          simp [h1, h2, make_comment, advance, make_comment_loop_eq,
            List.takeWhile_append_dropWhile]
        · simp [h1, h2, h3, h4, make_sym_or_other, advance]

/-- Every dispatched scan routine strictly shrinks the remaining text. -/
theorem next_token_length (ch : Char) (t : List Char) :
    ((next_token (ch :: t) ch).2).length ≤ t.length := by
  have hd := next_token_decomp ch t
  have hl := congrArg List.length hd.2
  simp only [List.length_append, List.length_cons] at hl
  have hlit : 1 ≤ (next_token (ch :: t) ch).1.literal.length := by
    cases hc : (next_token (ch :: t) ch).1.literal with
    | nil => exact absurd hc hd.1
    | cons a l => simp
  omega

/-- The fuelled loop on an exhausted stream returns no tokens. -/
theorem make_tokens_go_nil (fuel : Nat) : make_tokens_go fuel [] = [] := by
  cases fuel <;> rfl

/-- Any two sufficient fuel amounts give the same token list: the loop only
ever needs as many iterations as there are remaining characters. -/
theorem make_tokens_go_mono (fuel : Nat) :
    ∀ (h : Highligher) (fuel2 : Nat), h.length ≤ fuel → h.length ≤ fuel2 →
      make_tokens_go fuel h = make_tokens_go fuel2 h := by
  induction fuel with
  | zero =>
    intro h fuel2 hf _
    have : h = [] := List.length_eq_zero.mp (Nat.le_zero.mp hf)
    subst this
    simp [make_tokens_go_nil]
  | succ fuel ih =>
    intro h fuel2 hf hf2
    cases h with
    | nil => simp [make_tokens_go_nil]
    | cons ch t =>
      cases fuel2 with
      | zero => simp at hf2
      | succ fuel2 =>
        simp only [make_tokens_go, List.cons.injEq, true_and]
        have hlen := next_token_length ch t
        simp only [List.length_cons] at hf hf2
        exact ih _ _ (by omega) (by omega)

/-- With sufficient fuel, concatenating the emitted literals reproduces the
remaining characters. -/
theorem make_tokens_go_flatten (fuel : Nat) :
    ∀ h : Highligher, h.length ≤ fuel →
      (List.map Token.literal (make_tokens_go fuel h)).flatten = h := by
  induction fuel with
  | zero =>
    intro h hf
    have : h = [] := List.length_eq_zero.mp (Nat.le_zero.mp hf)
    subst this
    simp [make_tokens_go_nil]
  | succ fuel ih =>
    intro h hf
    cases h with
    | nil => simp [make_tokens_go_nil]
    | cons ch t =>
      simp only [make_tokens_go, List.map_cons, List.flatten_cons]
      have hlen := next_token_length ch t
      simp only [List.length_cons] at hf
      rw [ih _ (by omega)]
      exact (next_token_decomp ch t).2

/-- The loop emits at most one token per remaining character, for any fuel. -/
theorem make_tokens_go_length (fuel : Nat) :
    ∀ h : Highligher, (make_tokens_go fuel h).length ≤ h.length := by
  induction fuel with
  | zero =>
    intro h
    cases h <;> simp [make_tokens_go]
  | succ fuel ih =>
    intro h
    cases h with
    | nil => simp [make_tokens_go_nil]
    | cons ch t =>
      simp only [make_tokens_go, List.length_cons]
      have h1 := next_token_length ch t
      have h2 := ih (next_token (ch :: t) ch).2
      omega

/-- Every token the loop emits has a non-empty literal, for any fuel. -/
theorem make_tokens_go_literals_nonempty (fuel : Nat) :
    ∀ h : Highligher,
      (make_tokens_go fuel h).all (fun tok => !tok.literal.isEmpty) = true := by
  induction fuel with
  | zero =>
    intro h
    cases h <;> simp [make_tokens_go]
  | succ fuel ih =>
    intro h
    cases h with
    | nil => simp [make_tokens_go_nil]
    | cons ch t =>
      simp only [make_tokens_go, List.all_cons, Bool.and_eq_true]
      refine ⟨?_, ih _⟩
      have := (next_token_decomp ch t).1
      simp [List.isEmpty_iff, this]

end Highligher

/-- `List.find?` returns the head of the suffix left after dropping the
elements that fail the predicate. -/
theorem find?_eq_head_dropWhile (p : Char → Bool) (l : List Char) :
    List.find? p l = (List.dropWhile (fun c => !(p c)) l).head? := by
  induction l with
  | nil => rfl
  | cons a l ih =>
    cases hp : p a with
    | true => simp [List.find?_cons, hp, List.dropWhile_cons]
    | false => simp [List.find?_cons, hp, List.dropWhile_cons, ih]

/-- C1: Losslessness round-trip: for every input string, concatenating the
literal fields of the tokens returned by `make_tokens`, in emitted order,
reproduces the input exactly — no character is dropped, duplicated, or merged
incorrectly across tokens. -/
theorem make_tokens_lossless (s : List Char) :
    (List.map Token.literal (tokenize s)).flatten = s :=
  Highligher.make_tokens_go_flatten s.length s (Nat.le_refl _)

/-- C2: Totality and termination: `make_tokens` is a total function returning
a finite token list; it satisfies the defining fixpoint equation of the Rust
`while` loop (so the fuel bound of the embedding never runs out), because
every scan routine dispatched by `next_token` strictly shrinks the remaining
character stream, consuming at least one character per emitted token. -/
theorem make_tokens_total_and_progress :
    Highligher.make_tokens [] = [] ∧
    (∀ (ch : Char) (t : List Char),
      Highligher.make_tokens (ch :: t) =
        (Highligher.next_token (ch :: t) ch).1 ::
          Highligher.make_tokens (Highligher.next_token (ch :: t) ch).2) ∧
    (∀ (ch : Char) (t : List Char),
      ((Highligher.next_token (ch :: t) ch).2).length < (ch :: t).length) := by
  refine ⟨rfl, ?_, ?_⟩
  · intro ch t
    show Highligher.make_tokens_go (ch :: t).length (ch :: t) = _
    simp only [List.length_cons, Highligher.make_tokens_go, List.cons.injEq, true_and]
    exact Highligher.make_tokens_go_mono t.length _ _
      (Highligher.next_token_length ch t) (Nat.le_refl _)
  · intro ch t
    have := Highligher.next_token_length ch t
    simp only [List.length_cons]
    omega

/-- C3: Identifier classification priority: the identifier routine consumes
the maximal `[A-Za-z_][A-Za-z0-9_]*` run and classifies it by the strict
first-match order keywords, builtin functions, builtin errors, lookahead for
an opening parenthesis, plain identifier; concretely, `print(` starts with
`(BuiltinFun, "print")` and not `(Fun, "print")`, `if` gives `(Kw, "if")`,
and `iffy` gives the single token `(Ident, "iffy")`. -/
theorem make_ident_priority :
    (∀ h : Highligher,
      (Highligher.make_ident h).1.literal = List.takeWhile Highligher.isIdentChar h ∧
      (Highligher.make_ident h).2 = List.dropWhile Highligher.isIdentChar h ∧
      (Highligher.make_ident h).1.typ =
        (if Highligher.KEYWORDS.contains
            (List.asString (List.takeWhile Highligher.isIdentChar h)) then
          TokenType.Kw
        else if Highligher.BUILTIN_FUNCTIONS.contains
            (List.asString (List.takeWhile Highligher.isIdentChar h)) then
          TokenType.BuiltinFun
        else if Highligher.ERRORS.contains
            (List.asString (List.takeWhile Highligher.isIdentChar h)) then
          TokenType.Error
        else if (Highligher.next_is (List.dropWhile Highligher.isIdentChar h) '(').1 then
          TokenType.Fun
        else
          TokenType.Ident)) ∧
    tokenize ['p', 'r', 'i', 'n', 't', '('] =
      [⟨TokenType.BuiltinFun, ['p', 'r', 'i', 'n', 't']⟩, ⟨TokenType.Other, ['(']⟩] ∧
    tokenize ['i', 'f'] = [⟨TokenType.Kw, ['i', 'f']⟩] ∧
    tokenize ['i', 'f', 'f', 'y'] = [⟨TokenType.Ident, ['i', 'f', 'f', 'y']⟩] := by
  refine ⟨?_, by decide, by decide, by decide⟩
  intro h
  rw [Highligher.make_ident_eq]
  exact ⟨rfl, rfl, rfl⟩

/-- C4 counterexample: the claim asserts that on input `foo\n(` the lookahead
compares against the newline and the token is `(Ident, "foo")`; the code in
fact skips the current character (the newline) entirely when it is not `(`,
finds the `(` in the buffer behind it, and classifies `foo` as `Fun`. -/
theorem next_is_newline_counterexample :
    (tokenize ['f', 'o', 'o', '\n', '(']).head? = some ⟨TokenType.Fun, ['f', 'o', 'o']⟩ ∧
    (tokenize ['f', 'o', 'o', '\n', '(']).head? ≠ some ⟨TokenType.Ident, ['f', 'o', 'o']⟩ := by
  decide

/-- C4 (amended): the lookahead returns true when the character held as
current equals `(`; otherwise it passes over that character — whatever it is,
including a newline — and compares the first character of the remaining
buffer that is not a space or a tab, so only spaces and tabs (and the single
current character) are skipped inside the buffer: `foo\n(` classifies `foo`
as `Fun` (the newline is the passed-over current character), while
`foo\n\n(` classifies `foo` as `Ident` (the second newline, inside the
buffer, is compared and is not `(`). -/
theorem next_is_actual_lookahead :
    (∀ (h : Highligher) (ch : Char), (Highligher.next_is h ch).1 = next_is_spec h ch) ∧
    tokenize ['f', 'o', 'o', '\n', '('] =
      [⟨TokenType.Fun, ['f', 'o', 'o']⟩, ⟨TokenType.Other, ['\n']⟩,
       ⟨TokenType.Other, ['(']⟩] ∧
    (tokenize ['f', 'o', 'o', '\n', '\n', '(']).head? =
      some ⟨TokenType.Ident, ['f', 'o', 'o']⟩ := by
  refine ⟨?_, by decide, by decide⟩
  intro h ch
  unfold Highligher.next_is next_is_spec
  by_cases hc : Highligher.current_char h = some ch
  · simp [hc]
  · have hc2 : (Highligher.current_char h == some ch) = false := by
      simpa using hc
    rw [find?_eq_head_dropWhile]
    simp only [Bool.not_not, hc2, Bool.false_eq_true, if_false, Bool.false_or]
    cases hh : (List.dropWhile (fun c => c == ' ' || c == '\t')
        (Highligher.source h)).head? with
    | none => simp
    | some first => simp

/-- C5: Number scan: on a leading digit the routine consumes the maximal run
of digits, periods and underscores; the token is `Num` exactly when the text
with all underscores stripped parses as a 64-bit signed integer or 64-bit
float, `Other` otherwise, and the literal always keeps the original
unstripped run; concretely `1_000` gives `(Num, "1_000")` and `1.2.3` gives
`(Other, "1.2.3")`. -/
theorem make_num_classification :
    (∀ h : Highligher,
      Highligher.make_num h =
        (⟨if Highligher.parses_as_int
              ((List.takeWhile Highligher.isNumChar h).filter (fun c => c != '_'))
            || Highligher.parses_as_float
              ((List.takeWhile Highligher.isNumChar h).filter (fun c => c != '_')) then
            TokenType.Num
          else
            TokenType.Other,
          List.takeWhile Highligher.isNumChar h⟩,
         List.dropWhile Highligher.isNumChar h)) ∧
    tokenize ['1', '_', '0', '0', '0'] = [⟨TokenType.Num, ['1', '_', '0', '0', '0']⟩] ∧
    tokenize ['1', '.', '2', '.', '3'] = [⟨TokenType.Other, ['1', '.', '2', '.', '3']⟩] :=
  ⟨Highligher.make_num_eq, by decide, by decide⟩

/-- C6: String scan: on a quote the routine includes the opening quote in the
literal, consumes characters verbatim until a closing quote (included) or end
of input, the token type is `Str` in both cases, and no synthetic closing
quote is added for an unterminated string; concretely `"abc` gives the single
token `(Str, "\"abc")`. -/
theorem make_str_characterization :
    (∀ t : List Char,
      Highligher.make_str ('"' :: t) =
        (⟨TokenType.Str,
          '"' :: (if t.contains '"' then
            List.takeWhile (fun c => !(c == '"')) t ++ ['"']
          else t)⟩,
         if t.contains '"' then (List.dropWhile (fun c => !(c == '"')) t).tail else [])) ∧
    tokenize ['"', 'a', 'b', 'c'] = [⟨TokenType.Str, ['"', 'a', 'b', 'c']⟩] := by
  refine ⟨?_, by decide⟩
  intro t
  simp only [Highligher.make_str, Highligher.advance, List.tail_cons,
    Highligher.make_str_loop_eq]
  split <;> simp

/-- C7: Comment scan: on a pipe the routine includes the leading pipe in the
literal and consumes verbatim until a newline (exclusive: the newline is
neither consumed nor included) or end of input, with token type `Comment`;
concretely `|note\nx` gives `(Comment, "|note")` followed by separate tokens
for the newline and for `x`. -/
theorem make_comment_characterization :
    (∀ t : List Char,
      Highligher.make_comment ('|' :: t) =
        (⟨TokenType.Comment, '|' :: List.takeWhile (fun c => !(c == '\n')) t⟩,
         List.dropWhile (fun c => !(c == '\n')) t)) ∧
    tokenize ['|', 'n', 'o', 't', 'e', '\n', 'x'] =
      [⟨TokenType.Comment, ['|', 'n', 'o', 't', 'e']⟩, ⟨TokenType.Other, ['\n']⟩,
       ⟨TokenType.Ident, ['x']⟩] := by
  refine ⟨?_, by decide⟩
  intro t
  simp [Highligher.make_comment, Highligher.advance, Highligher.make_comment_loop_eq]

/-- C8: Symbol/fallback scan: a character that triggers no other routine is
consumed as exactly one single-character token, classified `Sym` iff it
belongs to the fixed twelve-character symbol set and `Other` otherwise;
concretely `(` gives `(Other, "(")` and `+` gives `(Sym, "+")`. -/
theorem make_sym_or_other_characterization :
    (∀ (ch : Char) (t : List Char),
      Highligher.isIdentStart ch = false → Highligher.isDigitChar ch = false →
      (ch == '"') = false → (ch == '|') = false →
      Highligher.make_tokens (ch :: t) =
        ⟨if ['+', '-', '*', '/', '^', '%', ':', '=', '>', '<', '!', '?'].contains ch then
            TokenType.Sym
          else TokenType.Other, [ch]⟩ :: Highligher.make_tokens t) ∧
    tokenize ['('] = [⟨TokenType.Other, ['(']⟩] ∧
    tokenize ['+'] = [⟨TokenType.Sym, ['+']⟩] := by
  refine ⟨?_, by decide, by decide⟩
  intro ch t h1 h2 h3 h4
  show Highligher.make_tokens_go (ch :: t).length (ch :: t) = _
  simp only [List.length_cons, Highligher.make_tokens_go, Highligher.next_token, h1, h2, h3, h4,
    Bool.false_eq_true, if_false, Highligher.make_sym_or_other, Highligher.advance,
    Highligher.SYMBOLS, List.tail_cons]
  rfl

/-- Witness for C8: the theorem applied at the concrete input `(` with an
empty remainder. -/
theorem make_sym_or_other_characterization_witness :
    Highligher.isIdentStart '(' = false ∧ Highligher.isDigitChar '(' = false ∧
    ('(' == '"') = false ∧ ('(' == '|') = false ∧
    Highligher.make_tokens ['('] =
      ⟨if ['+', '-', '*', '/', '^', '%', ':', '=', '>', '<', '!', '?'].contains '(' then
          TokenType.Sym
        else TokenType.Other, ['(']⟩ :: Highligher.make_tokens [] :=
  ⟨by decide, by decide, by decide, by decide,
    make_sym_or_other_characterization.1 '(' [] (by decide) (by decide) (by decide) (by decide)⟩

/-- C9: Lookahead is observation-only: for every lexer state and every target
character, `next_is` leaves the scan position unchanged — the state it hands
back, and hence both the current character and the remaining buffer, are
identical to what it was given. -/
theorem next_is_state_unchanged (h : Highligher) (ch : Char) :
    (Highligher.next_is h ch).2 = h ∧
    Highligher.current_char (Highligher.next_is h ch).2 = Highligher.current_char h ∧
    Highligher.source (Highligher.next_is h ch).2 = Highligher.source h := by
  refine ⟨Highligher.next_is_snd h ch, ?_, ?_⟩ <;> rw [Highligher.next_is_snd]

/-- C10: Non-empty literals: every token emitted by `make_tokens` has a
non-empty literal, and consequently the number of emitted tokens never
exceeds the number of characters of the input. -/
theorem make_tokens_nonempty_literals_count (s : List Char) :
    (tokenize s).all (fun tok => !tok.literal.isEmpty) = true ∧
    (tokenize s).length ≤ s.length :=
  ⟨Highligher.make_tokens_go_literals_nonempty s.length s,
   Highligher.make_tokens_go_length s.length s⟩
